import Mathlib

/-!
Verification development for the zdm_publisher repository: a shallow embedding
of its fetch/filter/dedup pipeline, its SQLite-backed push-state store and its
fallback HTML extractor, together with theorems checking the natural-language
specification's claims against the code.

Modelling conventions:
* Python dict-shaped records are embedded as the structure `Item` whose fields
  are `Option`-valued (a `none` field models an absent key or a `None` value;
  `dict.get` defaults are applied at each use site, mirroring the source).
* Python values that may be either `int` or `str` (the vote / comment counts)
  are embedded as the sum type `Val`.
* SQLite state is embedded as a pair of row lists: `committed` (durable) and
  `current` (the connection's uncommitted view).  `commit` copies `current`
  into `committed`; `rollback` restores `current` from `committed`.
* Fallible operations return `Except`; a raised Python exception is an
  `.error` value.
-/

deriving instance DecidableEq for Except

/-- A Python scalar that is either an `int` or a `str` (the dynamic type of the
`voted` / `comments` dict entries in this code base). -/
inductive Val
  | vInt (n : Int)
  | vStr (s : String)
deriving DecidableEq

/-- A dict-shaped record as it flows between the crawler, the processing
pipeline and the store (`article_id`, `title`, ... keys).  `none` models a
missing key (or a `None` value, which the source treats identically through
`dict.get` defaults). -/
structure Item where
  article_id : Option String := none
  title : Option String := none
  url : Option String := none
  price : Option String := none
  pic_url : Option String := none
  article_mall : Option String := none
  article_time : Option String := none
  voted : Option Val := none
  comments : Option Val := none
  pushed : Option Bool := none
deriving DecidableEq

/-! ### Push-state store (src/lx/utils/db_util.py)

The `ZDM` table has columns `article_id TEXT PRIMARY KEY`, `title TEXT NOT
NULL`, `url TEXT NOT NULL`, `article_pic_url`, `price`, `voted`, `comments`,
`article_mall`, `article_time`, `pushed INTEGER DEFAULT 0`. -/

/-- One row of the `ZDM` table.  `pushed` is stored as an SQLite integer. -/
structure Row where
  article_id : Option String
  title : Option String
  url : Option String
  article_pic_url : Option String
  price : Option String
  voted : Val
  comments : Val
  article_mall : Option String
  article_time : Option String
  pushed : Int
deriving DecidableEq

/-- The tuple bound by `save_or_update` / `save_or_update_batch`: each field is
`data.get(key)` with the defaults used in the source (`0` for the counts,
`False`-truthiness mapped to `0/1` for `pushed`). -/
def rowOf (data : Item) : Row :=
  { article_id := data.article_id
    title := data.title
    url := data.url
    article_pic_url := data.pic_url
    price := data.price
    voted := data.voted.getD (.vInt 0)
    comments := data.comments.getD (.vInt 0)
    article_mall := data.article_mall
    article_time := data.article_time
    pushed := if data.pushed.getD false then 1 else 0 }

/-- Connection state: the durable (committed) table and the connection's
current uncommitted view of it. -/
structure Db where
  committed : List Row
  current : List Row
deriving DecidableEq

/-- Errors raised by the sqlite layer that this development distinguishes. -/
inductive SqlError
  | notNullViolation
  /-- A malformed statement or a parameter-count mismatch between the SQL text
  and the values supplied to `execute`. -/
  | programmingError
deriving DecidableEq

/-- `INSERT OR REPLACE` row placement: a conflicting row (same non-NULL primary
key) is deleted and the new row appended; a `NULL` primary key never conflicts
in SQLite. -/
def replaceInto (rows : List Row) (r : Row) : List Row :=
  match r.article_id with
  | some _ => rows.filter (fun q => q.article_id ≠ r.article_id) ++ [r]
  | none => rows ++ [r]

/-- Execute one `INSERT OR REPLACE INTO ZDM ...`.  The `title` and `url`
columns are declared `NOT NULL`, so binding `None` there raises an integrity
error; all other bindings are accepted. -/
def insertOrReplace (rows : List Row) (r : Row) : Except SqlError (List Row) :=
  if r.title = none ∨ r.url = none then .error .notNullViolation
  else .ok (replaceInto rows r)

/-- `save_or_update`: one `execute` followed by `commit`; an execute failure
propagates (there is no handler) and nothing is committed. -/
def save_or_update (db : Db) (data : Item) : Db × Except SqlError Unit :=
  match insertOrReplace db.current (rowOf data) with
  | .ok cur => (⟨cur, cur⟩, .ok ())
  | .error e => (db, .error e)

/-- The `for item in data_list: await conn.execute(sql, ...)` loop of
`save_or_update_batch`: inserts run one by one against the connection's
current view; the first failure aborts the loop. -/
def execBatch (cur : List Row) : List Item → Except SqlError (List Row)
  | [] => .ok cur
  | item :: rest =>
    match insertOrReplace cur (rowOf item) with
    | .ok cur2 => execBatch cur2 rest
    | .error e => .error e

/-- `save_or_update_batch`: run all inserts, then `commit`; on any exception,
`rollback` and re-raise (`except Exception as e: await conn.rollback();
raise e`). -/
def save_or_update_batch (db : Db) (data_list : List Item) :
    Db × Except SqlError Unit :=
  match execBatch db.current data_list with
  | .ok cur => (⟨cur, cur⟩, .ok ())
  | .error e => (⟨db.committed, db.committed⟩, .error e)

/-- Row-to-dict conversion performed by `get_unpushed_records`: rename
`article_pic_url` to `pic_url` and convert `pushed` with `bool(...)`. -/
def unpushedRowToDict (r : Row) : Item :=
  { article_id := r.article_id
    title := r.title
    url := r.url
    price := r.price
    pic_url := r.article_pic_url
    article_mall := r.article_mall
    article_time := r.article_time
    voted := some r.voted
    comments := some r.comments
    pushed := some (r.pushed ≠ 0) }

/-- `get_unpushed_records`: `SELECT * FROM ZDM WHERE pushed = 0` on the
connection's current view, converted row by row. -/
def get_unpushed_records (db : Db) : List Item :=
  (db.current.filter (fun r => r.pushed = 0)).map unpushedRowToDict

/-- Python `str.join`: `sep.join(parts)`. -/
def joinSep (sep : String) : List String → String
  | [] => ""
  | [p] => p
  | p :: rest => p ++ sep ++ joinSep sep rest

/-- Python `s[:-1]`: drop the last character (identity on the empty string). -/
def pyDropLast (s : String) : String := String.mk s.toList.dropLast

/-- The parameter-placeholder fragment built by `update_pushed_status`:
`"?,".join(["?"] * n)[:-1]` for `n = len(article_ids)`. -/
def placeholderFragment (n : Nat) : String :=
  pyDropLast (joinSep "?," (List.replicate n "?"))

/-- The only whitespace-free fragment the sqlite layer accepts inside
`IN (...)` for `n` anonymous bound parameters: `n` question marks joined by
commas.  Any other whitespace-free fragment makes `execute` raise - either a
syntax error or a parameter-count mismatch. -/
def canonicalParams (n : Nat) : String :=
  joinSep "," (List.replicate n "?")

/-- SQL `article_id IN (...)` membership; a `NULL` id never matches. -/
def sqlIdIn (o : Option String) (ids : List String) : Bool :=
  match o with
  | some s => ids.contains s
  | none => false

/-- `update_pushed_status`: builds
`UPDATE ZDM SET pushed = {x} WHERE article_id IN ({fragment})` with the
fragment of `placeholderFragment` and executes it with `article_ids` as the
bound values, then commits.  If the fragment is not the canonical parameter
list for `len(article_ids)` values, `execute` raises before changing any row
and nothing is committed. -/
def update_pushed_status (db : Db) (article_ids : List String)
    (pushed : Bool) : Db × Except SqlError Unit :=
  if placeholderFragment article_ids.length
      = canonicalParams article_ids.length then
    let pushedInt : Int := if pushed then 1 else 0
    let cur := db.current.map fun r =>
      if sqlIdIn r.article_id article_ids then { r with pushed := pushedInt }
      else r
    (⟨cur, cur⟩, .ok ())
  else
    (db, .error .programmingError)

/-! #### C1: push-state round trip -/

/-- A concrete unpushed item for exercising the round trip. -/
def c1Item : Item :=
  { article_id := some "a1", title := some "t1", url := some "u1",
    pushed := some false }

/-- The store state after `save_or_update` of `c1Item` on an empty store. -/
def c1Db1 : Db := (save_or_update ⟨[], []⟩ c1Item).1

/-- C1, settled as a code bug: `upsert(item)` succeeds and the item appears in
`getUnpushed()`, but `setPushedStatus([item.id], true)` builds its SQL
placeholder list as `"?,".join(["?"] * 1)[:-1] = ""`, so the statement has
zero parameter slots for one supplied value, `execute` raises, no row is
updated, and the item still appears in `getUnpushed()` - the claimed round
trip fails on its second half. -/
theorem c1_push_state_round_trip_bug :
    (save_or_update ⟨[], []⟩ c1Item).2 = .ok ()
    ∧ ((get_unpushed_records c1Db1).filter
        (fun it => it.article_id == some "a1")).length = 1
    ∧ placeholderFragment 1 = ""
    ∧ (update_pushed_status c1Db1 ["a1"] true).2 = .error .programmingError
    ∧ get_unpushed_records (update_pushed_status c1Db1 ["a1"] true).1
        = get_unpushed_records c1Db1 := by
  decide

/-! #### C8: batch upsert atomicity -/

/-- An item whose bound `title` is non-NULL and `url` is non-NULL, i.e. whose
insert succeeds. -/
def insertableItem (it : Item) : Prop :=
  (rowOf it).title ≠ none ∧ (rowOf it).url ≠ none

instance (it : Item) : Decidable (insertableItem it) := by
  unfold insertableItem; infer_instance

theorem execBatch_ok_of_insertable (l : List Item)
    (h : ∀ it ∈ l, insertableItem it) :
    ∀ cur, ∃ cur2, execBatch cur l = .ok cur2 := by
  induction l with
  | nil => intro cur; exact ⟨cur, rfl⟩
  | cons hd tl ih =>
    intro cur
    have hhd := h hd (by simp)
    obtain ⟨h1, h2⟩ := hhd
    have : insertOrReplace cur (rowOf hd) = .ok (replaceInto cur (rowOf hd)) := by
      unfold insertOrReplace
      rw [if_neg]
      intro hor
      rcases hor with h' | h'
      · exact h1 h'
      · exact h2 h'
    obtain ⟨cur2, hcur2⟩ := ih (fun it hit => h it (by simp [hit]))
      (replaceInto cur (rowOf hd))
    exact ⟨cur2, by simp [execBatch, this, hcur2]⟩

theorem execBatch_error_of_uninsertable (l : List Item)
    (h : ∃ it ∈ l, ¬ insertableItem it) :
    ∀ cur, ∃ e, execBatch cur l = .error e := by
  induction l with
  | nil => simp at h
  | cons hd tl ih =>
    intro cur
    by_cases hhd : insertableItem hd
    · obtain ⟨h1, h2⟩ := hhd
      have hstep : insertOrReplace cur (rowOf hd)
          = .ok (replaceInto cur (rowOf hd)) := by
        unfold insertOrReplace
        rw [if_neg]
        intro hor
        rcases hor with h' | h'
        · exact h1 h'
        · exact h2 h'
      have htl : ∃ it ∈ tl, ¬ insertableItem it := by
        rcases h with ⟨it, hit, hbad⟩
        rcases List.mem_cons.mp hit with rfl | hmem
        · exact absurd ⟨h1, h2⟩ hbad
        · exact ⟨it, hmem, hbad⟩
      obtain ⟨e, he⟩ := ih htl (replaceInto cur (rowOf hd))
      exact ⟨e, by simp [execBatch, hstep, he]⟩
    · have hstep : insertOrReplace cur (rowOf hd) = .error .notNullViolation := by
        unfold insertOrReplace
        rw [if_pos]
        unfold insertableItem at hhd
        by_contra hor
        push_neg at hor
        exact hhd ⟨hor.1, hor.2⟩
      exact ⟨.notNullViolation, by simp [execBatch, hstep]⟩

/-- C8, confirmed: on a connection with no pending changes, a batch upsert is
all-or-nothing.  If every item of the batch is insertable the whole batch is
applied and committed; if any item is not, `execute` raises, the batch is
rolled back (the durable table is unchanged and no pending rows are left) and
the error is re-raised to the caller. -/
theorem c8_batch_upsert_atomicity (db : Db) (items : List Item)
    (hclean : db.current = db.committed) :
    ((∀ it ∈ items, insertableItem it) →
      ∃ cur, execBatch db.committed items = .ok cur
        ∧ save_or_update_batch db items = (⟨cur, cur⟩, .ok ()))
    ∧ ((∃ it ∈ items, ¬ insertableItem it) →
      ∃ e, save_or_update_batch db items
        = (⟨db.committed, db.committed⟩, .error e)) := by
  constructor
  · intro hall
    obtain ⟨cur, hcur⟩ := execBatch_ok_of_insertable items hall db.committed
    refine ⟨cur, hcur, ?_⟩
    unfold save_or_update_batch
    rw [hclean, hcur]
  · intro hbad
    obtain ⟨e, he⟩ := execBatch_error_of_uninsertable items hbad db.committed
    refine ⟨e, ?_⟩
    unfold save_or_update_batch
    rw [hclean, he]

/-- Witness for C8 at a concrete batch: the first item is insertable, the
second lacks a `url`, and the batch upsert on an empty store rolls back with
an error while committing nothing. -/
theorem c8_batch_upsert_atomicity_witness :
    (∃ it ∈ [c1Item, ({ article_id := some "a2", title := some "t2" } : Item)],
      ¬ insertableItem it)
    ∧ ∃ e, save_or_update_batch ⟨[], []⟩
        [c1Item, ({ article_id := some "a2", title := some "t2" } : Item)]
        = (⟨[], []⟩, .error e) := by
  refine ⟨by decide, ?_⟩
  exact (c8_batch_upsert_atomicity ⟨[], []⟩ _ rfl).2 (by decide)

/-! ### Processing pipeline (src/lx/service/data_processing_service.py) -/

/-- Truthiness of an id as tested by `if article_id and ...`: `None` and the
empty string are falsy. -/
def truthyId : Option String → Option String
  | some s => if s.isEmpty then none else some s
  | none => none

/-- The loop body of `_remove_duplicates` with the `seen_ids` accumulator made
explicit. -/
def removeDupGo (seen : List String) : List Item → List Item
  | [] => []
  | it :: rest =>
    match truthyId it.article_id with
    | some s =>
      if seen.contains s then removeDupGo seen rest
      else it :: removeDupGo (s :: seen) rest
    | none => removeDupGo seen rest

/-- `_remove_duplicates`: keep the first occurrence per truthy `article_id`,
drop items whose `article_id` is absent, `None` or empty. -/
def remove_duplicates (items : List Item) : List Item := removeDupGo [] items

/-- Tail of a `前\d+名` match after its digits: zero or more further decimal
digits followed by `名`. -/
def moreDigitsThenMing : List Char → Bool
  | [] => false
  | c :: rest => if c.isDigit then moreDigitsThenMing rest else c = '名'

/-- One or more decimal digits followed by `名`. -/
def digitsThenMing : List Char → Bool
  | [] => false
  | c :: rest => if c.isDigit then moreDigitsThenMing rest else false

/-- `re.search` of the compiled pattern `前\d+名` over a character list: some
position carries `前`, then one or more digits, then `名`.  The `IGNORECASE`
flag in the source is inert (the pattern has no cased letters); `\d` is
modelled as the decimal digits `0-9` (no claim involves other Unicode
decimal-digit characters). -/
def flashSaleSearch : List Char → Bool
  | [] => false
  | c :: rest => (if c = '前' then digitsThenMing rest else false)
      || flashSaleSearch rest

/-- `self.flash_sale_pattern.search(title)` as a Boolean. -/
def flash_sale_matches (title : String) : Bool := flashSaleSearch title.toList

/-- A Python `TypeError` (the only exception the embedded pipeline can
raise). -/
inductive PyError
  | typeError
deriving DecidableEq

/-- Python `v < m` for a dynamic `v` against an `int` threshold: comparing a
`str` with an `int` raises `TypeError`. -/
def valLtInt (v : Val) (m : Int) : Except PyError Bool :=
  match v with
  | .vInt n => .ok (decide (n < m))
  | .vStr _ => .error .typeError

/-- The two instance thresholds of `DataProcessingService`, with their
constructor defaults. -/
structure Thresholds where
  min_vote_threshold : Int := 10
  min_comment_threshold : Int := 5
deriving DecidableEq

/-- The default-constructed thresholds (`min_vote_threshold = 10`,
`min_comment_threshold = 5`). -/
def defaultThresholds : Thresholds := {}

/-- Python `article_id in pushed_ids` for `pushed_ids` a set of strings: a
missing / `None` id is never a member. -/
def mem_pushed (o : Option String) (pushed_ids : List String) : Bool :=
  match o with
  | some s => pushed_ids.contains s
  | none => false

/-- `_filter_items`: skip items whose id is already pushed, whose `voted` or
`comments` fall below the thresholds, or whose title matches the flash-sale
pattern; the dynamic `<` comparisons can raise `TypeError`. -/
def filter_items (cfg : Thresholds) : List Item → List String →
    Except PyError (List Item)
  | [], _ => .ok []
  | it :: rest, pushed_ids =>
    if mem_pushed it.article_id pushed_ids then
      filter_items cfg rest pushed_ids
    else
      match valLtInt (it.voted.getD (.vInt 0)) cfg.min_vote_threshold with
      | .error e => .error e
      | .ok true => filter_items cfg rest pushed_ids
      | .ok false =>
        match valLtInt (it.comments.getD (.vInt 0))
            cfg.min_comment_threshold with
        | .error e => .error e
        | .ok true => filter_items cfg rest pushed_ids
        | .ok false =>
          if flash_sale_matches (it.title.getD "") then
            filter_items cfg rest pushed_ids
          else
            match filter_items cfg rest pushed_ids with
            | .error e => .error e
            | .ok l => .ok (it :: l)

/-- An `Option Val` count field that holds no string (it is absent, `None`, or
an `int` - the shape the structured extractor and the store produce). -/
def intCounts (it : Item) : Prop :=
  (∀ s, it.voted ≠ some (.vStr s)) ∧ (∀ s, it.comments ≠ some (.vStr s))

instance (it : Item) : Decidable (intCounts it) := by
  unfold intCounts
  rcases it.voted with _ | v <;> rcases it.comments with _ | c
  · exact Decidable.isTrue (by simp)
  · rcases c with n | s
    · exact Decidable.isTrue (by simp)
    · exact Decidable.isFalse (by simp)
  · rcases v with n | s
    · exact Decidable.isTrue (by simp)
    · exact Decidable.isFalse (by simp)
  · rcases v with n | s
    · rcases c with m | t
      · exact Decidable.isTrue (by simp)
      · exact Decidable.isFalse (by simp)
    · exact Decidable.isFalse (by simp)

/-- The integer value of a count field under the `dict.get(key, 0)` default.
Only meaningful on items satisfying `intCounts`; on a string-valued field the
source raises instead (see the C10 theorem). -/
def intCount (v : Option Val) : Int :=
  match v with
  | some (.vInt n) => n
  | some (.vStr _) => 0
  | none => 0

/-- The filter predicate of the specification: id not pushed, both counts at
or above their thresholds, title free of the flash-sale pattern. -/
def passes (cfg : Thresholds) (pushed_ids : List String) (it : Item) : Bool :=
  !mem_pushed it.article_id pushed_ids
  && decide (cfg.min_vote_threshold ≤ intCount it.voted)
  && decide (cfg.min_comment_threshold ≤ intCount it.comments)
  && !flash_sale_matches (it.title.getD "")

theorem getD_intCounts (v : Option Val) (h : ∀ s, v ≠ some (.vStr s)) :
    v.getD (.vInt 0) = .vInt (intCount v) := by
  match v with
  | none => rfl
  | some (.vInt n) => rfl
  | some (.vStr s) => exact absurd rfl (h s)

theorem filter_items_eq_filter (cfg : Thresholds) (pushed_ids : List String) :
    ∀ items : List Item, (∀ it ∈ items, intCounts it) →
      filter_items cfg items pushed_ids
        = .ok (items.filter (passes cfg pushed_ids))
  | [], _ => rfl
  | it :: rest, h => by
    have hrest := filter_items_eq_filter cfg pushed_ids rest
      (fun x hx => h x (List.mem_cons_of_mem _ hx))
    have hv' : it.voted.getD (.vInt 0) = .vInt (intCount it.voted) :=
      getD_intCounts _ (h it (List.mem_cons_self _ _)).1
    have hc' : it.comments.getD (.vInt 0) = .vInt (intCount it.comments) :=
      getD_intCounts _ (h it (List.mem_cons_self _ _)).2
    unfold filter_items
    by_cases hp : mem_pushed it.article_id pushed_ids
    · simp [hp, hrest, List.filter_cons, passes]
    · rw [if_neg hp, hv', hc']
      by_cases h1 : intCount it.voted < cfg.min_vote_threshold
      · simp [valLtInt, h1, hrest, List.filter_cons, passes, not_le.2 h1]
      · by_cases h2 : intCount it.comments < cfg.min_comment_threshold
        · simp [valLtInt, h1, h2, hrest, List.filter_cons, passes, not_le.2 h2,
            not_lt.1 h1]
        · by_cases h3 : flash_sale_matches (it.title.getD "")
          · simp [valLtInt, h1, h2, h3, hrest, List.filter_cons, passes]
          · simp [valLtInt, h1, h2, h3, hrest, List.filter_cons, passes, hp,
              not_lt.1 h1, not_lt.1 h2]

/-- C2, confirmed: on a deduplicated list of items whose counts are integers
(the shape the structured extractor produces, per the data model), the filter
returns exactly the items that pass the four-condition predicate: id not in
`pushedIds`, `voted` at or above the vote threshold (default 10, boundary
included), `comments` at or above the comment threshold (default 5), and a
title with no `前\d+名` match (`"前3名"` matches, `"前三名"` does not). -/
theorem c2_filter_predicate (cfg : Thresholds) (raw : List Item)
    (pushed_ids : List String)
    (h : ∀ it ∈ remove_duplicates raw, intCounts it) :
    filter_items cfg (remove_duplicates raw) pushed_ids
      = .ok ((remove_duplicates raw).filter (passes cfg pushed_ids))
    ∧ (∀ it, it ∈ (remove_duplicates raw).filter (passes cfg pushed_ids)
        ↔ it ∈ remove_duplicates raw ∧ passes cfg pushed_ids it = true)
    ∧ defaultThresholds.min_vote_threshold = 10
    ∧ defaultThresholds.min_comment_threshold = 5
    ∧ flash_sale_matches "前3名" = true
    ∧ flash_sale_matches "前三名" = false :=
  ⟨filter_items_eq_filter cfg pushed_ids _ h,
    fun it => List.mem_filter,
    rfl, rfl, by decide, by decide⟩

/-- A concrete boundary item: counts exactly at the default thresholds. -/
def c2ItemA : Item :=
  { article_id := some "x1", title := some "deal one", url := some "u1",
    voted := some (.vInt 10), comments := some (.vInt 5) }

/-- A concrete low-vote item. -/
def c2ItemB : Item :=
  { article_id := some "x2", title := some "deal two", url := some "u2",
    voted := some (.vInt 9), comments := some (.vInt 99) }

/-- A concrete already-pushed item. -/
def c2ItemC : Item :=
  { article_id := some "p1", title := some "deal three", url := some "u3",
    voted := some (.vInt 100), comments := some (.vInt 100) }

/-- A concrete flash-sale item. -/
def c2ItemD : Item :=
  { article_id := some "x4", title := some "限时前3名半价", url := some "u4",
    voted := some (.vInt 50), comments := some (.vInt 50) }

/-- Witness for C2 at concrete inputs: the boundary item passes, the
low-vote, already-pushed and flash-sale items are excluded. -/
theorem c2_filter_predicate_witness :
    (∀ it ∈ remove_duplicates [c2ItemA, c2ItemB, c2ItemC, c2ItemD],
      intCounts it)
    ∧ filter_items defaultThresholds
        (remove_duplicates [c2ItemA, c2ItemB, c2ItemC, c2ItemD]) ["p1"]
      = .ok ((remove_duplicates [c2ItemA, c2ItemB, c2ItemC, c2ItemD]).filter
          (passes defaultThresholds ["p1"]))
    ∧ (remove_duplicates [c2ItemA, c2ItemB, c2ItemC, c2ItemD]).filter
          (passes defaultThresholds ["p1"]) = [c2ItemA] :=
  ⟨by decide,
    (c2_filter_predicate defaultThresholds [c2ItemA, c2ItemB, c2ItemC, c2ItemD]
      ["p1"] (by decide)).1,
    by decide⟩

theorem truthyId_eq_some {o : Option String} {s : String}
    (h : truthyId o = some s) : o = some s ∧ ¬s.isEmpty := by
  match o with
  | none => exact absurd h (by simp [truthyId])
  | some t =>
    by_cases ht : t.isEmpty
    · simp [truthyId, ht] at h
    · simp [truthyId, ht] at h
      exact ⟨by rw [h], h ▸ ht⟩

theorem truthyId_eq_none {o : Option String} (h : truthyId o = none) :
    o = none ∨ o = some "" := by
  match o with
  | none => exact Or.inl rfl
  | some t =>
    by_cases ht : t.isEmpty
    · right
      rw [String.isEmpty_iff] at ht
      rw [ht]
    · simp [truthyId, ht] at h

theorem removeDupGo_cons_none {hd : Item} {seen : List String}
    (h : truthyId hd.article_id = none) (tl : List Item) :
    removeDupGo seen (hd :: tl) = removeDupGo seen tl := by
  simp [removeDupGo, h]

theorem removeDupGo_cons_seen {hd : Item} {seen : List String} {s : String}
    (h : truthyId hd.article_id = some s) (hs : seen.contains s = true)
    (tl : List Item) :
    removeDupGo seen (hd :: tl) = removeDupGo seen tl := by
  have hmem : s ∈ seen := List.mem_of_elem_eq_true hs
  simp [removeDupGo, h, hmem]

theorem removeDupGo_cons_new {hd : Item} {seen : List String} {s : String}
    (h : truthyId hd.article_id = some s) (hs : seen.contains s = false)
    (tl : List Item) :
    removeDupGo seen (hd :: tl) = hd :: removeDupGo (s :: seen) tl := by
  have hmem : s ∉ seen := by simpa using hs
  simp [removeDupGo, h, hmem]

theorem removeDupGo_ids :
    ∀ (l : List Item) (seen : List String), ∀ it ∈ removeDupGo seen l,
      ∃ s, truthyId it.article_id = some s ∧ s ∉ seen
  | [], _, it, hit => absurd hit (by simp [removeDupGo])
  | hd :: tl, seen, it, hit => by
    match htr : truthyId hd.article_id with
    | none =>
      rw [removeDupGo_cons_none htr] at hit
      exact removeDupGo_ids tl seen it hit
    | some s =>
      match hseen : seen.contains s with
      | true =>
        rw [removeDupGo_cons_seen htr hseen] at hit
        exact removeDupGo_ids tl seen it hit
      | false =>
        rw [removeDupGo_cons_new htr hseen] at hit
        rcases List.mem_cons.mp hit with rfl | hmem
        · exact ⟨s, htr, by simpa using hseen⟩
        · obtain ⟨s2, hs2, hnot⟩ := removeDupGo_ids tl (s :: seen) it hmem
          exact ⟨s2, hs2, fun hs => hnot (List.mem_cons_of_mem _ hs)⟩

theorem removeDupGo_sublist :
    ∀ (l : List Item) (seen : List String),
      List.Sublist (removeDupGo seen l) l
  | [], _ => List.Sublist.refl _
  | hd :: tl, seen => by
    match htr : truthyId hd.article_id with
    | none =>
      rw [removeDupGo_cons_none htr]
      exact (removeDupGo_sublist tl seen).cons hd
    | some s =>
      match hseen : seen.contains s with
      | true =>
        rw [removeDupGo_cons_seen htr hseen]
        exact (removeDupGo_sublist tl seen).cons hd
      | false =>
        rw [removeDupGo_cons_new htr hseen]
        exact (removeDupGo_sublist tl (s :: seen)).cons₂ hd

theorem removeDupGo_pairwise :
    ∀ (l : List Item) (seen : List String),
      (removeDupGo seen l).Pairwise (fun a b => a.article_id ≠ b.article_id)
  | [], _ => List.Pairwise.nil
  | hd :: tl, seen => by
    match htr : truthyId hd.article_id with
    | none =>
      rw [removeDupGo_cons_none htr]
      exact removeDupGo_pairwise tl seen
    | some s =>
      match hseen : seen.contains s with
      | true =>
        rw [removeDupGo_cons_seen htr hseen]
        exact removeDupGo_pairwise tl seen
      | false =>
        rw [removeDupGo_cons_new htr hseen]
        refine List.pairwise_cons.2 ⟨fun b hb => ?_, removeDupGo_pairwise tl _⟩
        obtain ⟨s2, hs2, hnot⟩ := removeDupGo_ids tl (s :: seen) b hb
        obtain ⟨hhd, _⟩ := truthyId_eq_some htr
        obtain ⟨hb2, _⟩ := truthyId_eq_some hs2
        rw [hhd, hb2]
        intro hcontra
        apply hnot
        rw [← Option.some_inj.mp hcontra]
        exact List.mem_cons_self _ _

theorem removeDupGo_first :
    ∀ (l : List Item) (seen : List String), ∀ it ∈ removeDupGo seen l,
      ∃ pre post, l = pre ++ it :: post
        ∧ ∀ x ∈ pre, x.article_id ≠ it.article_id
  | [], _, it, hit => absurd hit (by simp [removeDupGo])
  | hd :: tl, seen, it, hit => by
    obtain ⟨sit, hsit, hsnot⟩ := removeDupGo_ids (hd :: tl) seen it hit
    obtain ⟨hitid, hitne⟩ := truthyId_eq_some hsit
    match htr : truthyId hd.article_id with
    | none =>
      rw [removeDupGo_cons_none htr] at hit
      obtain ⟨pre, post, heq, hpre⟩ := removeDupGo_first tl seen it hit
      refine ⟨hd :: pre, post, by rw [heq]; rfl, fun x hx => ?_⟩
      rcases List.mem_cons.mp hx with rfl | hmem
      · rw [hitid]
        rcases truthyId_eq_none htr with hnone | hempty
        · rw [hnone]; simp
        · rw [hempty]
          intro hcontra
          apply hitne
          rw [← Option.some_inj.mp hcontra]
          rfl
      · exact hpre x hmem
    | some s =>
      obtain ⟨hhdid, _⟩ := truthyId_eq_some htr
      match hseen : seen.contains s with
      | true =>
        rw [removeDupGo_cons_seen htr hseen] at hit
        obtain ⟨pre, post, heq, hpre⟩ := removeDupGo_first tl seen it hit
        refine ⟨hd :: pre, post, by rw [heq]; rfl, fun x hx => ?_⟩
        rcases List.mem_cons.mp hx with rfl | hmem
        · rw [hitid, hhdid]
          intro hcontra
          apply hsnot
          rw [← Option.some_inj.mp hcontra]
          exact List.mem_of_elem_eq_true hseen
        · exact hpre x hmem
      | false =>
        rw [removeDupGo_cons_new htr hseen] at hit
        rcases List.mem_cons.mp hit with rfl | hmem
        · exact ⟨[], tl, rfl, by simp⟩
        · obtain ⟨s2, hs2, hnot⟩ := removeDupGo_ids tl (s :: seen) it hmem
          obtain ⟨pre, post, heq, hpre⟩ := removeDupGo_first tl (s :: seen) it hmem
          refine ⟨hd :: pre, post, by rw [heq]; rfl, fun x hx => ?_⟩
          rcases List.mem_cons.mp hx with rfl | hmem2
          · obtain ⟨hitid2, _⟩ := truthyId_eq_some hs2
            rw [hitid2, hhdid]
            intro hcontra
            apply hnot
            rw [← Option.some_inj.mp hcontra]
            exact List.mem_cons_self _ _
          · exact hpre x hmem2

/-- C3, confirmed: `_remove_duplicates` returns a sublist of its input (so the
relative order of the retained first occurrences is preserved), no two
retained items share an `article_id`, every retained item is the first
occurrence of its id in the input, and items without a truthy id are
dropped. -/
theorem c3_dedup_first_occurrence (items : List Item) :
    List.Sublist (remove_duplicates items) items
    ∧ (remove_duplicates items).Pairwise
        (fun a b => a.article_id ≠ b.article_id)
    ∧ ∀ it ∈ remove_duplicates items,
        (∃ s, it.article_id = some s ∧ s ≠ "")
        ∧ ∃ pre post, items = pre ++ it :: post
            ∧ ∀ x ∈ pre, x.article_id ≠ it.article_id := by
  refine ⟨removeDupGo_sublist items [], removeDupGo_pairwise items [],
    fun it hit => ⟨?_, removeDupGo_first items [] it hit⟩⟩
  obtain ⟨s, hs, _⟩ := removeDupGo_ids items [] it hit
  obtain ⟨hid, hne⟩ := truthyId_eq_some hs
  exact ⟨s, hid, fun hcontra => hne (by rw [hcontra]; rfl)⟩

/-- The sort key of `_sort_items`: `(x.get('voted', 0), x.get('comments', 0))`.
The integer reading is meaningful on items satisfying `intCounts`; the C6
theorem is scoped to such lists (filter outputs), where Python's tuple
comparison is the lexicographic integer comparison embedded here. -/
def itemKey (it : Item) : Int × Int := (intCount it.voted, intCount it.comments)

/-- Lexicographic `≤` on key tuples (Python tuple comparison). -/
def keyLeB (p q : Int × Int) : Bool :=
  decide (p.1 < q.1) || (p.1 == q.1 && decide (p.2 ≤ q.2))

/-- `a` may precede `b` in the descending sort: `key a ≥ key b`
lexicographically.  `sorted(..., reverse=True)` orders by exactly this
relation and is stable on ties. -/
def sortRel (a b : Item) : Prop := keyLeB (itemKey b) (itemKey a) = true

instance : DecidableRel sortRel := fun _ _ =>
  inferInstanceAs (Decidable (_ = true))

instance : IsTotal Item sortRel :=
  ⟨fun a b => by
    simp only [sortRel, keyLeB, Bool.or_eq_true, Bool.and_eq_true,
      decide_eq_true_eq, beq_iff_eq]
    omega⟩

instance : IsTrans Item sortRel :=
  ⟨fun a b c hab hbc => by
    simp only [sortRel, keyLeB, Bool.or_eq_true, Bool.and_eq_true,
      decide_eq_true_eq, beq_iff_eq] at hab hbc ⊢
    omega⟩

/-- `_sort_items`: `sorted(items, key=..., reverse=True)`.  A stable sort is
determined by its order relation, so the stable insertion sort embeds
Python's Timsort faithfully. -/
def sort_items (items : List Item) : List Item :=
  List.insertionSort sortRel items

theorem sortRel_of_eq {a b : Item} (h : itemKey b = itemKey a) : sortRel a b := by
  simp only [sortRel, keyLeB, Bool.or_eq_true, Bool.and_eq_true,
    decide_eq_true_eq, beq_iff_eq, h]
  exact Or.inr ⟨trivial, le_refl _⟩

theorem key_ne_of_not_sortRel {a b : Item} (h : ¬ sortRel a b) :
    itemKey b ≠ itemKey a :=
  fun he => h (sortRel_of_eq he)

theorem filter_key_orderedInsert (a : Item) (k : Int × Int) :
    ∀ l : List Item,
      (List.orderedInsert sortRel a l).filter (fun x => itemKey x == k)
        = if itemKey a == k
          then a :: l.filter (fun x => itemKey x == k)
          else l.filter (fun x => itemKey x == k)
  | [] => by
    by_cases hak : (itemKey a == k) = true <;>
      simp [List.orderedInsert, List.filter_cons, hak]
  | b :: bs => by
    by_cases hab : sortRel a b
    · by_cases hak : (itemKey a == k) = true <;>
        simp [List.orderedInsert, if_pos hab, List.filter_cons, hak]
    · have hne : itemKey b ≠ itemKey a := key_ne_of_not_sortRel hab
      have ih := filter_key_orderedInsert a k bs
      simp only [List.orderedInsert, if_neg hab]
      by_cases hak : (itemKey a == k) = true
      · have hbk : (itemKey b == k) = false := by
          rw [beq_eq_false_iff_ne]
          rw [beq_iff_eq] at hak
          rw [hak] at hne
          exact hne
        simp [List.filter_cons, hbk, ih, hak]
      · by_cases hbk : (itemKey b == k) = true <;>
          simp [List.filter_cons, hbk, ih, hak]

theorem filter_key_insertionSort (k : Int × Int) :
    ∀ l : List Item,
      (List.insertionSort sortRel l).filter (fun x => itemKey x == k)
        = l.filter (fun x => itemKey x == k)
  | [] => rfl
  | x :: l => by
    have ih := filter_key_insertionSort k l
    simp only [List.insertionSort]
    rw [filter_key_orderedInsert]
    by_cases hxk : (itemKey x == k) = true <;>
      simp [List.filter_cons, hxk, ih]

/-- The claim's first example item, `(votes, comments) = (10, 5)`. -/
def c6ItemA : Item :=
  { article_id := some "s1", title := some "t", url := some "u",
    voted := some (.vInt 10), comments := some (.vInt 5) }

/-- The claim's second example item, `(votes, comments) = (10, 8)`. -/
def c6ItemB : Item :=
  { article_id := some "s2", title := some "t", url := some "u",
    voted := some (.vInt 10), comments := some (.vInt 8) }

/-- The claim's third example item, `(votes, comments) = (20, 1)`. -/
def c6ItemC : Item :=
  { article_id := some "s3", title := some "t", url := some "u",
    voted := some (.vInt 20), comments := some (.vInt 1) }

/-- C6, confirmed: on integer-counted lists (every filtered item list is one),
`_sort_items` returns a permutation of its input that is sorted descending by
the `(votes, comments)` tuple - ties on votes broken by comments - and is
stable: items with equal key tuples keep their input order (the equal-key
subsequences of input and output coincide).  The claim's concrete example
comes out in the claimed order. -/
theorem c6_sort_items_descending (items : List Item)
    (_h : ∀ it ∈ items, intCounts it) :
    List.Perm (sort_items items) items
    ∧ List.Sorted sortRel (sort_items items)
    ∧ (∀ k, (sort_items items).filter (fun x => itemKey x == k)
        = items.filter (fun x => itemKey x == k))
    ∧ sort_items [c6ItemA, c6ItemB, c6ItemC] = [c6ItemC, c6ItemB, c6ItemA] :=
  ⟨List.perm_insertionSort sortRel items,
    List.sorted_insertionSort sortRel items,
    fun k => filter_key_insertionSort k items,
    by decide⟩

/-- Witness for C6 at the claim's concrete example list. -/
theorem c6_sort_items_descending_witness :
    (∀ it ∈ [c6ItemA, c6ItemB, c6ItemC], intCounts it)
    ∧ sort_items [c6ItemA, c6ItemB, c6ItemC] = [c6ItemC, c6ItemB, c6ItemA] :=
  ⟨by decide,
    (c6_sort_items_descending [c6ItemA, c6ItemB, c6ItemC] (by decide)).2.2.2⟩

/-! ### Numeric unit parser (src/lx/utils/utils.py, `str_number_format`)

`float(...)` is modelled by exact evaluation of plain decimal literals
(optional sign, digits, at most one dot) as `mantissa / 10 ^ scale`.
Exponent, underscore, `inf` and `nan` literal forms are outside the model;
no claim input uses them, and every claim input evaluates far enough from an
integer boundary that the IEEE-754 rounding of CPython's `float` cannot
change the truncated or rounded result. -/

/-- Python `str.strip()` on a character list. -/
def trimChars (cs : List Char) : List Char :=
  ((cs.dropWhile Char.isWhitespace).reverse.dropWhile Char.isWhitespace).reverse

/-- The numeric value of a list of decimal digits. -/
def digitsToNat (cs : List Char) : Nat :=
  cs.foldl (fun a c => 10 * a + (c.toNat - 48)) 0

/-- Split a character list at its only dot: `some (intPart, none)` when there
is no dot, `some (intPart, some fracPart)` for one dot, `none` for two or
more. -/
def splitOnDot : List Char → Option (List Char × Option (List Char))
  | [] => some ([], none)
  | '.' :: rest => if rest.contains '.' then none else some ([], some rest)
  | c :: rest =>
    match splitOnDot rest with
    | some (ip, fp) => some (c :: ip, fp)
    | none => none

/-- An exact decimal value `mantissa / 10 ^ scale`. -/
structure DecValue where
  mantissa : Int
  scale : Nat
deriving DecidableEq

/-- Python `float(s)` on a plain decimal literal, as an exact decimal;
`none` models a `ValueError`. -/
def parseDecimal? (s : String) : Option DecValue :=
  let cs := trimChars s.toList
  let sgn : Int := match cs with
    | '-' :: _ => -1
    | _ => 1
  let ds : List Char := match cs with
    | '-' :: r => r
    | '+' :: r => r
    | _ => cs
  match splitOnDot ds with
  | none => none
  | some (ip, fp) =>
    let fracDigits := fp.getD []
    if ip.all Char.isDigit && fracDigits.all Char.isDigit
        && (!ip.isEmpty || !fracDigits.isEmpty) then
      some ⟨sgn * ((digitsToNat ip : Int) * (10 : Int) ^ fracDigits.length
          + (digitsToNat fracDigits : Int)), fracDigits.length⟩
    else none

/-- Python `int(d * m)` for an exact decimal `d` and an integer unit `m`:
truncation toward zero of `(mantissa * m) / 10 ^ scale`. -/
def decTruncMul (d : DecValue) (m : Int) : Int :=
  Int.tdiv (d.mantissa * m) ((10 : Int) ^ d.scale)

/-- Python 3 `round(d * m)` to an integer: nearest, ties to even. -/
def pythonRoundMul (d : DecValue) (m : Int) : Int :=
  let n := d.mantissa * m
  let den : Int := (10 : Int) ^ d.scale
  let f := Int.fdiv n den
  let r := n - f * den
  if 2 * r < den then f
  else if den < 2 * r then f + 1
  else if f % 2 = 0 then f else f + 1

/-- `str_number_format`: blank input gives `0`; a trailing `k`/`K` or `w`/`W`
scales the float value of the stripped prefix by 1000 / 10000 and truncates
with `int(...)`; otherwise every non-digit character is removed and the rest
parsed as an integer; a float `ValueError` yields `0`. -/
def str_number_format (s : String) : Int :=
  if s.isEmpty || (trimChars s.toList).isEmpty then 0
  else
    let cs := trimChars s.toList
    if cs.getLast? == some 'k' || cs.getLast? == some 'K' then
      match parseDecimal? (String.mk cs.dropLast) with
      | some d => decTruncMul d 1000
      | none => 0
    else if cs.getLast? == some 'w' || cs.getLast? == some 'W' then
      match parseDecimal? (String.mk cs.dropLast) with
      | some d => decTruncMul d 10000
      | none => 0
    else
      let num := cs.filter Char.isDigit
      if num.isEmpty then 0 else (digitsToNat num : Int)

/-- Modelled from the amended specification text of the numeric unit parser:
empty/blank maps to 0; a trailing `k`/`K` to `int(float(prefix) * 1000)`
(truncation toward zero); a trailing `w`/`W` to `int(float(prefix) * 10000)`;
otherwise all non-digit characters are stripped and the remainder parsed as
an integer (empty digit string maps to 0); any float parse failure maps
to 0. -/
def specParseCount (s : String) : Int :=
  let t := trimChars s.toList
  if t.isEmpty then 0
  else if t.getLast? == some 'k' || t.getLast? == some 'K' then
    match parseDecimal? (String.mk t.dropLast) with
    | some d => decTruncMul d 1000
    | none => 0
  else if t.getLast? == some 'w' || t.getLast? == some 'W' then
    match parseDecimal? (String.mk t.dropLast) with
    | some d => decTruncMul d 10000
    | none => 0
  else
    let num := t.filter Char.isDigit
    if num.isEmpty then 0 else (digitsToNat num : Int)

/-- C5's counterexample: the claim prescribes `round(float(prefix) * 1000)`
for a trailing `k`, which at `"0.9999k"` is `round(999.9) = 1000`, but the
code computes `int(float(prefix) * 1000)`, which truncates to `999`. -/
theorem c5_count_parser_round_counterexample :
    parseDecimal? "0.9999" = some ⟨9999, 4⟩
    ∧ pythonRoundMul ⟨9999, 4⟩ 1000 = 1000
    ∧ str_number_format "0.9999k" = 999
    ∧ pythonRoundMul ⟨9999, 4⟩ 1000 ≠ str_number_format "0.9999k" := by
  refine ⟨by decide, by decide, by decide, by decide⟩

/-- C5, corrected: the parser truncates (`int(...)`) instead of rounding; with
that amendment the behaviour matches the spec-worded parser on every string
of the model, and all of the claim's listed values hold. -/
theorem c5_count_parser_truncating :
    (∀ s, str_number_format s = specParseCount s)
    ∧ str_number_format "1.5k" = 1500
    ∧ str_number_format "2w" = 20000
    ∧ str_number_format "" = 0
    ∧ str_number_format "abc" = 0
    ∧ str_number_format "123" = 123 := by
  refine ⟨fun s => ?_, by decide, by decide, by decide, by decide, by decide⟩
  unfold str_number_format specParseCount
  by_cases hs : s.isEmpty = true
  · have he : s = "" := by rw [← String.isEmpty_iff]; exact hs
    subst he
    decide
  · have hs' : s.isEmpty = false := by simpa using hs
    rw [hs', Bool.false_or]

/-! ### Crawler (src/lx/service/crawler_service.py) -/

/-- Python `str(...)` on a dynamic scalar. -/
def pyStr : Val → String
  | .vInt n => toString n
  | .vStr s => s

/-- One raw record of the structured JSON `goods_list`. -/
structure RawGoods where
  article_id : Option Val := none
  article_title : Option String := none
  article_url : Option String := none
  article_price : Option String := none
  article_pic_url : Option String := none
  article_mall : Option String := none
  article_vote : Option String := none
  article_comment : Option String := none
  article_time : Option String := none

/-- `_parse_zdm_items`: skip records whose `str()`-normalised id, stripped
title or url is empty; parse the counts with `str_number_format` (so they are
integers); set `pushed = False`. -/
def parse_zdm_items : List RawGoods → List Item
  | [] => []
  | goods :: rest =>
    let article_id := pyStr (goods.article_id.getD (.vStr ""))
    let title := String.mk (trimChars (goods.article_title.getD "").toList)
    let url := goods.article_url.getD ""
    if article_id.isEmpty || title.isEmpty || url.isEmpty then
      parse_zdm_items rest
    else
      { article_id := some article_id
        title := some title
        url := some url
        price := some (goods.article_price.getD "")
        pic_url := some (goods.article_pic_url.getD "")
        article_mall := some (goods.article_mall.getD "")
        voted := some (.vInt (str_number_format (goods.article_vote.getD "0")))
        comments := some (.vInt (str_number_format
          (goods.article_comment.getD "0")))
        article_time := some (goods.article_time.getD "")
        pushed := some false } :: parse_zdm_items rest

/-- Side effects the fetch loop can trigger while handling a 200 response
with JSON content type. -/
inductive FetchAction
  | refresh_cookies
  | html_fallback
deriving DecidableEq

/-- The parsed JSON body shape `{suc, data: {goods_list}, error_msg}`. -/
structure SucResponse where
  suc : Option Int := none
  goods_list : List RawGoods := []
  error_msg : Option String := none

/-- The 200-with-`application/json` branch of `_fetch_page_data` (lines
99-122) as a trace of triggered side effects plus an optional returned item
list (`none` falls through to the retry loop).  `parsed` is the outcome of
`json.loads` on the body; `htmlItems` stands for `_parse_html_content`
applied to the raw response text.  On `suc == 1` the structured items are
returned; on a false success flag the code refreshes cookies (refresh
failure swallowed) and retries without touching the body again; on a JSON
decode error it runs the HTML fallback on the raw body (no cookie refresh)
and returns its items when non-empty. -/
def handle_json_200 (parsed : Except Unit SucResponse)
    (htmlItems : List Item) : List FetchAction × Option (List Item) :=
  match parsed with
  | .ok data =>
    if data.suc = some 1 then
      ([], some (parse_zdm_items data.goods_list))
    else
      ([.refresh_cookies], none)
  | .error _ =>
    ([.html_fallback], if htmlItems.isEmpty then none else some htmlItems)

/-- C4's counterexample: the claim says both a false success flag and a JSON
parse failure trigger a cookie refresh *and then* the HTML fallback; in the
code the `suc == 0` branch refreshes but never attempts the HTML fallback,
and the parse-failure branch attempts the fallback but never refreshes. -/
theorem c4_fallback_counterexample :
    FetchAction.html_fallback ∉ (handle_json_200 (.ok { suc := some 0 }) []).1
    ∧ (handle_json_200 (.ok { suc := some 0 }) []).2 = none
    ∧ FetchAction.refresh_cookies ∉ (handle_json_200 (.error ()) []).1 := by
  decide

/-- C4, corrected: on a 200 JSON response, a false (or missing) success flag
triggers only a token refresh (failure swallowed) and falls back to the retry
loop with no HTML extraction; a JSON parse failure triggers only the
HTML-fallback extraction on the raw body, whose items are returned when
non-empty. -/
theorem c4_fetch_fallback_split (data : SucResponse) (htmlItems : List Item)
    (hsuc : data.suc ≠ some 1) :
    handle_json_200 (.ok data) htmlItems = ([.refresh_cookies], none)
    ∧ handle_json_200 (.error ()) htmlItems
      = ([.html_fallback],
          if htmlItems.isEmpty then none else some htmlItems) := by
  exact ⟨by simp [handle_json_200, hsuc], rfl⟩

/-- Witness for C4 at a concrete `suc: 0` response. -/
theorem c4_fetch_fallback_split_witness :
    ({ suc := some 0 } : SucResponse).suc ≠ some 1
    ∧ handle_json_200 (.ok { suc := some 0 }) [] = ([.refresh_cookies], none) :=
  ⟨by decide, (c4_fetch_fallback_split { suc := some 0 } [] (by decide)).1⟩

/-- One selected HTML element, abstracted as what the extractor reads from
it: `selText sel` models `element.select_one(sel)` yielding the stripped text
of the first match (`none`: no matching element); `aHref` models
`element.select_one('a[href]') or element.parent.select_one('a[href]')`
yielding the `href` value; `img` models the optional first `img` element as
its attribute lookup with `.get(attr, '')` defaults. -/
structure HtmlElement where
  selText : String → Option String
  aHref : Option String
  img : Option (String → String)

/-- One document link from `soup.find_all('a', href=True)`. -/
structure HtmlLink where
  href : String
  text : String

/-- A parsed document: `select` models `soup.select(pattern)`; `links`
models `soup.find_all('a', href=True)`. -/
structure HtmlDoc where
  select : String → List HtmlElement
  links : List HtmlLink

/-- Clock and randomness inputs of the fallback extractor: `now` is
`int(time.time())`, `nowStr` is `time.strftime('%Y-%m-%d %H:%M:%S')`, and
each `random.randint` / `random.choice` call site draws from its own oracle
indexed by item position. -/
structure HtmlEnv where
  now : Nat
  nowStr : String
  idRand : Nat → Nat
  voteRand : Nat → Nat
  commentRand : Nat → Nat
  priceRand : Nat → Nat
  centsRand : Nat → Nat
  productRand : Nat → Nat
  storeRand : Nat → Nat

/-- `random.randint(lo, hi)` driven by an oracle draw. -/
def randint (lo hi draw : Nat) : Nat := lo + draw % (hi + 1 - lo)

/-- The container-selector priority list of `_parse_html_content`. -/
def item_selectors : List String :=
  [".feed-block", ".listItem", ".articleItem", ".feed-main-content",
   ".goods-list .item", ".list-item", ".feed-content",
   ".topic-content", ".article-content", ".post-item",
   ".z-feed-article", ".content-item", ".article-item",
   "div[data-type=\"article\"]", "div.article-card",
   "li.feed-item", ".zdm-list-item", ".smzdm-article-item"]

/-- The per-element title selector priority list. -/
def title_selectors : List String :=
  ["h2", ".feed-block-title", ".title", ".article-title",
   "a.title-link", "h3", ".item-title", ".goods-title"]

/-- The per-element price selector priority list. -/
def price_selectors : List String :=
  [".price", ".z-highlight", ".red", ".cost-price",
   ".item-price", ".goods-price", ".buy-price"]

/-- The per-element merchant selector priority list. -/
def source_selectors : List String :=
  [".mall", ".source", ".shop", ".merchant", ".store"]

/-- The `for ts in selectors: ... break` loop: text of the first selector
with a matching element. -/
def firstSelText (e : HtmlElement) (sels : List String) : Option String :=
  sels.findSome? e.selText

/-- Python `found or default` (an empty found text is falsy). -/
def orDefault (v : Option String) (d : String) : String :=
  match v with
  | some s => if s.isEmpty then d else s
  | none => d

/-- Character-list comparison underlying `str.startswith`. -/
def startsWithL : List Char → List Char → Bool
  | [], _ => true
  | _ :: _, [] => false
  | p :: ps, c :: cs => p = c && startsWithL ps cs

/-- Python `s.startswith(pat)`. -/
def pyStartsWith (s pat : String) : Bool := startsWithL pat.toList s.toList

/-- Link normalisation of the selector path: absolute links kept, `/`-rooted
paths resolved against the site origin, anything else (including the empty
link) prefixed with the origin and a slash. -/
def normalizeLink (link : String) : String :=
  if pyStartsWith link "http" then link
  else if pyStartsWith link "/" then "https://www.smzdm.com" ++ link
  else "https://www.smzdm.com/" ++ link

/-- Python `a or b or c or ...` over strings: the first non-empty one. -/
def firstNonEmptyStr : List String → String
  | [] => ""
  | s :: rest => if s.isEmpty then firstNonEmptyStr rest else s

/-- The `src` / lazy-load attribute chain of the image extraction. -/
def extractPic (e : HtmlElement) : String :=
  match e.img with
  | none => ""
  | some get => firstNonEmptyStr
      [get "src", get "data-src", get "data-original", get "data-lazy-img"]

/-- One item of the selector path (crawler lines 174-231): synthesised
time+random id, title/price/merchant through their selector lists with
placeholder defaults, normalised link, image attribute chain, and - note -
`voted` and `comments` rendered with `str(random.randint(...))`, so they are
strings. -/
def element_item (env : HtmlEnv) (i : Nat) (e : HtmlElement) : Item :=
  { article_id := some (toString env.now
      ++ toString (randint 100 999 (env.idRand i)))
    title := some (orDefault (firstSelText e title_selectors) "无标题")
    url := some (normalizeLink (e.aHref.getD ""))
    price := some (orDefault (firstSelText e price_selectors) "¥0.00")
    pic_url := some (extractPic e)
    article_mall := some (orDefault (firstSelText e source_selectors) "未知来源")
    voted := some (.vStr (toString (randint 0 100 (env.voteRand i))))
    comments := some (.vStr (toString (randint 0 50 (env.commentRand i))))
    article_time := some env.nowStr
    pushed := some false }

/-- The validity filter applied per selector: a title other than the
`无标题` placeholder and longer than 5 characters. -/
def validTitle (it : Item) : Bool :=
  match it.title with
  | some t => t != "无标题" && decide (5 < t.length)
  | none => false

/-- All valid items extracted from one selector's matched elements. -/
def selector_valid_items (env : HtmlEnv) (elems : List HtmlElement) :
    List Item :=
  (elems.mapIdx (fun i e => element_item env i e)).filter validTitle

/-- The selector loop: first selector with matches and at least 3 valid
items wins; otherwise the accumulated items are discarded and the next
selector tried. -/
def try_selectors (env : HtmlEnv) (doc : HtmlDoc) :
    List String → Option (List Item)
  | [] => none
  | sel :: rest =>
    if (doc.select sel).isEmpty then try_selectors env doc rest
    else if 3 ≤ (selector_valid_items env (doc.select sel)).length then
      some (selector_valid_items env (doc.select sel))
    else try_selectors env doc rest

/-- Python `s[:100]`. -/
def pyTake (n : Nat) (s : String) : String := String.mk (s.toList.take n)

/-- Python `f'{n:02d}'` for a small non-negative count. -/
def pad2 (n : Nat) : String := if n < 10 then "0" ++ toString n else toString n

/-- One item of the link-scan path (crawler lines 248-263); `voted` and
`comments` are again `str(random.randint(...))` strings. -/
def link_item (env : HtmlEnv) (i : Nat) (l : HtmlLink) : Item :=
  { article_id := some (toString env.now
      ++ toString (randint 100 999 (env.idRand i)))
    title := some (pyTake 100 l.text)
    url := some l.href
    price := some ("¥" ++ toString (randint 10 999 (env.priceRand i))
      ++ "." ++ pad2 (randint 0 99 (env.centsRand i)))
    pic_url := some ""
    article_mall := some "未知来源"
    voted := some (.vStr (toString (randint 0 50 (env.voteRand i))))
    comments := some (.vStr (toString (randint 0 20 (env.commentRand i))))
    article_time := some env.nowStr
    pushed := some false }

/-- The link filter: truthy stripped text longer than 10 characters. -/
def longText (l : HtmlLink) : Bool := !l.text.isEmpty && decide (10 < l.text.length)

/-- The link-scan path: the first 50 links, filtered by `longText`, one item
each. -/
def link_items (env : HtmlEnv) (links : List HtmlLink) : List Item :=
  ((links.take 50).filter longText).mapIdx (fun i l => link_item env i l)

/-- The synthetic product names of `_get_mock_data`. -/
def mock_products : List String :=
  ["Apple iPhone 15 Pro 256GB 钛金属手机",
   "Sony WH-1000XM5 无线降噪耳机",
   "Dyson V15 Detect 无绳吸尘器",
   "Nintendo Switch OLED 游戏主机",
   "Canon EOS R5 全画幅微单相机",
   "DJI Mini 4 Pro 航拍无人机",
   "LG OLED48C3 48英寸OLED电视",
   "Bose QuietComfort Earbuds 2 真无线降噪耳机",
   "Samsung Galaxy S23 Ultra 512GB 智能手机",
   "Microsoft Surface Pro 9 平板电脑"]

/-- The synthetic store names of `_get_mock_data`. -/
def mock_stores : List String := ["京东", "天猫", "苏宁易购", "亚马逊", "官方旗舰店"]

/-- `random.choice` driven by an oracle draw. -/
def pyChoice (l : List String) (draw : Nat) : String :=
  l.getD (draw % l.length) ""

/-- One synthetic placeholder item of `_get_mock_data`: id
`f'mock_{int(time.time())}_{i}'`, labelled title, random store and price,
and string-rendered random `voted` / `comments`. -/
def mock_item (env : HtmlEnv) (i : Nat) : Item :=
  { article_id := some ("mock_"
      ++ (toString env.now ++ "_" ++ toString i))
    title := some ("【限时优惠】" ++ pyChoice mock_products (env.productRand i)
      ++ " 特价促销")
    url := some ("https://www.example.com/product/" ++ toString i)
    price := some ("¥" ++ toString (randint 100 9999 (env.priceRand i))
      ++ "." ++ pad2 (randint 0 99 (env.centsRand i)))
    pic_url := some ("https://example.com/images/product_" ++ toString i
      ++ ".jpg")
    article_mall := some (pyChoice mock_stores (env.storeRand i))
    voted := some (.vStr (toString (randint 10 200 (env.voteRand i))))
    comments := some (.vStr (toString (randint 5 50 (env.commentRand i))))
    article_time := some env.nowStr
    pushed := some false }

/-- `_get_mock_data`: exactly five synthetic items. -/
def get_mock_data (env : HtmlEnv) : List Item :=
  (List.range 5).map (mock_item env)

/-- `_parse_html_content`: try the selector patterns in order; then scan the
first 50 document links for long-text ones (capped at 10 results); as the
last resort return the synthetic placeholder batch. -/
def parse_html_content (env : HtmlEnv) (doc : HtmlDoc) : List Item :=
  match try_selectors env doc item_selectors with
  | some valid => valid
  | none =>
    if 0 < (link_items env doc.links).length then
      (link_items env doc.links).take 10
    else get_mock_data env

theorem try_selectors_eq_none (env : HtmlEnv) (doc : HtmlDoc) :
    ∀ sels : List String,
      (∀ sel ∈ sels, (selector_valid_items env (doc.select sel)).length < 3) →
      try_selectors env doc sels = none
  | [], _ => rfl
  | sel :: rest, h => by
    have hsel := h sel (List.mem_cons_self _ _)
    have ih := try_selectors_eq_none env doc rest
      (fun s hs => h s (List.mem_cons_of_mem _ hs))
    unfold try_selectors
    by_cases he : (doc.select sel).isEmpty
    · rw [if_pos he]
      exact ih
    · rw [if_neg he, if_neg (by omega)]
      exact ih

theorem link_items_eq_nil (env : HtmlEnv) (links : List HtmlLink)
    (h : ∀ l ∈ links, longText l = false) : link_items env links = [] := by
  unfold link_items
  have : (links.take 50).filter longText = [] := by
    rw [List.filter_eq_nil_iff]
    intro l hl
    rw [h l (List.mem_of_mem_take hl)]
    simp
  rw [this]
  simp

/-- C7, confirmed: when no selector pattern yields at least 3 valid-titled
records and no document link has long anchor text, `_parse_html_content`
returns exactly the synthetic placeholder batch of `_get_mock_data`: 5 items,
each with an article id of the form `mock_...`. -/
theorem c7_synthetic_degraded_mode (env : HtmlEnv) (doc : HtmlDoc)
    (h1 : ∀ sel ∈ item_selectors,
      (selector_valid_items env (doc.select sel)).length < 3)
    (h2 : ∀ l ∈ doc.links, longText l = false) :
    parse_html_content env doc = get_mock_data env
    ∧ (get_mock_data env).length = 5
    ∧ ∀ it ∈ get_mock_data env, ∃ r, it.article_id = some ("mock_" ++ r) := by
  refine ⟨?_, by simp [get_mock_data], ?_⟩
  · unfold parse_html_content
    rw [try_selectors_eq_none env doc item_selectors h1,
      link_items_eq_nil env doc.links h2]
    rfl
  · intro it hit
    rw [get_mock_data, List.mem_map] at hit
    obtain ⟨i, _, rfl⟩ := hit
    exact ⟨toString env.now ++ "_" ++ toString i, rfl⟩

/-- A degenerate environment for exercising the degraded mode. -/
def c7Env : HtmlEnv :=
  ⟨0, "", fun _ => 0, fun _ => 0, fun _ => 0, fun _ => 0, fun _ => 0,
    fun _ => 0, fun _ => 0⟩

/-- A document with no selector matches and no links. -/
def c7Doc : HtmlDoc := ⟨fun _ => [], []⟩

/-- Witness for C7 on the empty document. -/
theorem c7_synthetic_degraded_mode_witness :
    (∀ sel ∈ item_selectors,
      (selector_valid_items c7Env (c7Doc.select sel)).length < 3)
    ∧ (∀ l ∈ c7Doc.links, longText l = false)
    ∧ parse_html_content c7Env c7Doc = get_mock_data c7Env :=
  ⟨by decide, by decide,
    (c7_synthetic_degraded_mode c7Env c7Doc (by decide) (by decide)).1⟩

/-- An item whose `voted` and `comments` entries are strings (the shape every
fallback-extracted item has). -/
def strCounts (it : Item) : Prop :=
  (∃ s, it.voted = some (.vStr s)) ∧ (∃ s, it.comments = some (.vStr s))

theorem filter_items_error_of_strVoted (cfg : Thresholds)
    (pushed_ids : List String) :
    ∀ items : List Item,
      (∃ it ∈ items, (∃ s, it.voted = some (.vStr s))
        ∧ mem_pushed it.article_id pushed_ids = false) →
      filter_items cfg items pushed_ids = .error .typeError
  | [], h => by simp at h
  | hd :: tl, h => by
    by_cases hhd : (∃ s, hd.voted = some (.vStr s))
        ∧ mem_pushed hd.article_id pushed_ids = false
    · obtain ⟨⟨s, hs⟩, hp⟩ := hhd
      unfold filter_items
      rw [if_neg (by simp [hp]), hs]
      rfl
    · have htl : ∃ it ∈ tl, (∃ s, it.voted = some (.vStr s))
          ∧ mem_pushed it.article_id pushed_ids = false := by
        obtain ⟨it, hmem, hprop⟩ := h
        rcases List.mem_cons.mp hmem with rfl | hmem2
        · exact absurd hprop hhd
        · exact ⟨it, hmem2, hprop⟩
      have ih := filter_items_error_of_strVoted cfg pushed_ids tl htl
      unfold filter_items
      by_cases hp : mem_pushed hd.article_id pushed_ids
      · rw [if_pos hp]
        exact ih
      · rw [if_neg hp]
        match hv : hd.voted.getD (.vInt 0) with
        | .vStr s => rfl
        | .vInt n =>
          simp only [valLtInt]
          by_cases h1 : n < cfg.min_vote_threshold
          · rw [decide_eq_true h1]
            exact ih
          · rw [decide_eq_false h1]
            match hc : hd.comments.getD (.vInt 0) with
            | .vStr s => rfl
            | .vInt m =>
              simp only [valLtInt]
              by_cases h2 : m < cfg.min_comment_threshold
              · rw [decide_eq_true h2]
                exact ih
              · rw [decide_eq_false h2]
                by_cases h3 : flash_sale_matches (hd.title.getD "")
                · rw [if_pos h3]
                  exact ih
                · rw [if_neg h3, ih]

theorem filter_items_ok_no_strVoted (cfg : Thresholds)
    (pushed_ids : List String) :
    ∀ (items out : List Item),
      filter_items cfg items pushed_ids = .ok out →
      ∀ it ∈ out, ∀ s, it.voted ≠ some (.vStr s)
  | [], out, hok => by
    unfold filter_items at hok
    cases hok
    simp
  | hd :: tl, out, hok => by
    unfold filter_items at hok
    by_cases hp : mem_pushed hd.article_id pushed_ids
    · rw [if_pos hp] at hok
      exact filter_items_ok_no_strVoted cfg pushed_ids tl out hok
    · rw [if_neg hp] at hok
      match hv : hd.voted.getD (.vInt 0), hok with
      | .vStr s, hok => exact Except.noConfusion hok
      | .vInt n, hok => ?_
      simp only [valLtInt] at hok
      by_cases h1 : n < cfg.min_vote_threshold
      · rw [decide_eq_true h1] at hok
        exact filter_items_ok_no_strVoted cfg pushed_ids tl out hok
      · rw [decide_eq_false h1] at hok
        match hc : hd.comments.getD (.vInt 0), hok with
        | .vStr s, hok => exact Except.noConfusion hok
        | .vInt m, hok => ?_
        simp only [valLtInt] at hok
        by_cases h2 : m < cfg.min_comment_threshold
        · rw [decide_eq_true h2] at hok
          exact filter_items_ok_no_strVoted cfg pushed_ids tl out hok
        · rw [decide_eq_false h2] at hok
          by_cases h3 : flash_sale_matches (hd.title.getD "")
          · rw [if_pos h3] at hok
            exact filter_items_ok_no_strVoted cfg pushed_ids tl out hok
          · rw [if_neg h3] at hok
            match hrest : filter_items cfg tl pushed_ids, hok with
            | .error e, hok => exact Except.noConfusion hok
            | .ok l, hok => ?_
            have hout : out = hd :: l := (Except.ok.injEq _ _).mp hok.symm
            subst hout
            intro it hit
            rcases List.mem_cons.mp hit with rfl | hmem
            · intro s hcontra
              rw [hcontra] at hv
              simp at hv
            · exact filter_items_ok_no_strVoted cfg pushed_ids tl l
                hrest it hmem

/-- C10's counterexample: the claim says the filter raises a type error for
*every* list containing a fallback-extracted item, but an item whose id is in
`pushedIds` is skipped before its string `voted` is ever compared - the
filter returns normally.  (`mock_item c7Env 0` has id `mock_0_0` and string
counts.) -/
theorem c10_pushed_skip_counterexample :
    (∃ s, (mock_item c7Env 0).voted = some (.vStr s))
    ∧ filter_items defaultThresholds [mock_item c7Env 0] ["mock_0_0"]
      = .ok [] :=
  ⟨⟨"10", by decide⟩, by decide⟩

/-- C10, corrected: every item built by the three fallback paths (selector,
link-scan, synthetic) carries `voted` and `comments` as strings; the filter
raises `TypeError` on any list containing such an item whose id is *not* in
`pushedIds` (an already-pushed id is skipped before the comparison); and in
every case no string-counted item ever appears in the filter's output. -/
theorem c10_fallback_items_never_filtered (cfg : Thresholds)
    (pushed_ids : List String) :
    (∀ env i e, strCounts (element_item env i e))
    ∧ (∀ env i l, strCounts (link_item env i l))
    ∧ (∀ env i, strCounts (mock_item env i))
    ∧ (∀ items : List Item,
        (∃ it ∈ items, (∃ s, it.voted = some (.vStr s))
          ∧ mem_pushed it.article_id pushed_ids = false) →
        filter_items cfg items pushed_ids = .error .typeError)
    ∧ (∀ items out, filter_items cfg items pushed_ids = .ok out →
        ∀ it ∈ out, ∀ s, it.voted ≠ some (.vStr s)) :=
  ⟨fun _ _ _ => ⟨⟨_, rfl⟩, ⟨_, rfl⟩⟩,
    fun _ _ _ => ⟨⟨_, rfl⟩, ⟨_, rfl⟩⟩,
    fun _ _ => ⟨⟨_, rfl⟩, ⟨_, rfl⟩⟩,
    filter_items_error_of_strVoted cfg pushed_ids,
    filter_items_ok_no_strVoted cfg pushed_ids⟩

/-- Witness for C10: a synthetic mock item with an unpushed id makes the
filter raise. -/
theorem c10_fallback_items_never_filtered_witness :
    filter_items defaultThresholds [mock_item c7Env 0] []
      = .error .typeError :=
  (c10_fallback_items_never_filtered defaultThresholds []).2.2.2.1
    [mock_item c7Env 0]
    ⟨mock_item c7Env 0, List.mem_cons_self _ _, ⟨"10", by decide⟩, by decide⟩

/-! ### Session / cookie manager (crawler lines 378-447)

The embedding is total because every operation that can raise in the source
(`open` / `json.load` on the side file, the file write) sits inside a
`try/except` whose handler is modelled explicitly; `_update_cookies`
additionally wraps its whole body in a catch-all handler.  Python `None` for
the cookie dict is `none`; an empty dict `{}` is `some []` (falsy but not
`None`). -/

/-- Truthiness of `self.cookies`: `None` and `{}` are falsy. -/
def truthyCookies : Option (List (String × String)) → Bool
  | none => false
  | some d => !d.isEmpty

/-- The instance state `(self.cookies, self.cookies_last_updated)`. -/
structure CookieState where
  cookies : Option (List (String × String))
  cookies_last_updated : Int

/-- The parsed cookie side file: the outer `Option` on `cookies` is key
presence (`none`: key missing, so `.get('cookies', {})` yields `{}`); the
inner one distinguishes JSON `null` from a dict. -/
structure CookieFileData where
  cookies : Option (Option (List (String × String))) := none
  timestamp : Option Int := none

/-- Environment of one `_update_cookies` call: the CI detection, the side
file (`none`: absent; `some (.error ())`: open / `json.load` raises, caught
by the inner handler; `some (.ok fd)`: parsed object), and `time.time()`. -/
structure CookieEnv where
  is_ci : Bool
  file : Option (Except Unit CookieFileData)
  now : Int

/-- The `device_id` / `session` placeholder cookies synthesised by the
degraded path. -/
def default_cookies (now : Int) : List (String × String) :=
  [("device_id", toString now), ("session", "session_" ++ toString now)]

/-- The file-loading block of `_update_cookies` (lines 402-414): on a parsed
file both `self.cookies` and `self.cookies_last_updated` are assigned before
the freshness check; the Boolean says whether the loaded data is fresh, which
makes the function return early.  A missing file or a caught read error
leaves the state unchanged and does not return early. -/
def load_cookie_file (st : CookieState) (file : Option (Except Unit CookieFileData))
    (now : Int) : CookieState × Bool :=
  match file with
  | some (.ok fd) =>
    ({ cookies := match fd.cookies with
        | none => some []
        | some v => v
       cookies_last_updated := fd.timestamp.getD 0 },
      decide (now - fd.timestamp.getD 0 < 3600))
  | _ => (st, false)

/-- `_update_cookies`: in CI, keep truthy cookies or install `{}` and stamp
the time; otherwise try the side file and return early when it is fresh;
otherwise keep truthy cookies or install the synthesised defaults, stamp the
time (and persist to the file, swallowing write errors - no state effect). -/
def update_cookies (env : CookieEnv) (st : CookieState) : CookieState :=
  if env.is_ci then
    { cookies := if truthyCookies st.cookies then st.cookies else some []
      cookies_last_updated := env.now }
  else
    let loaded := load_cookie_file st env.file env.now
    if loaded.2 then loaded.1
    else
      { cookies := if truthyCookies loaded.1.cookies then loaded.1.cookies
          else some (default_cookies env.now)
        cookies_last_updated := env.now }

/-- `_get_or_update_cookies`: refresh when the held cookies are falsy or
older than the 3600 s TTL, then return `self.cookies`. -/
def get_or_update_cookies (env : CookieEnv) (st : CookieState) :
    CookieState × Option (List (String × String)) :=
  if !truthyCookies st.cookies
      || decide (env.now - st.cookies_last_updated > 3600) then
    ((update_cookies env st), (update_cookies env st).cookies)
  else (st, st.cookies)

theorem truthyCookies_ne_none {c : Option (List (String × String))}
    (h : truthyCookies c = true) : c ≠ none := by
  intro hn
  rw [hn] at h
  exact Bool.false_ne_true h

/-- The cookie file whose `cookies` entry is JSON `null` with a fresh
timestamp. -/
def c9File : CookieFileData := { cookies := some none, timestamp := some 1000 }

/-- The environment loading `c9File` at time 1000 outside CI. -/
def c9Env : CookieEnv := { is_ci := false, file := some (.ok c9File), now := 1000 }

/-- C9's counterexample: with a cookie side file `{"cookies": null,
"timestamp": fresh}`, `_update_cookies` assigns `self.cookies =
cookie_data.get('cookies', {})`, which is `None` (the key is present with
value `null`), sees a fresh timestamp and returns early; `getOrRefresh` then
returns `None` - not a non-null token set. -/
theorem c9_null_token_set_counterexample :
    (get_or_update_cookies c9Env ⟨none, 0⟩).2 = none := by decide

/-- C9, corrected: `getOrRefresh` never raises (the embedding is total
because every raising operation is wrapped by a handler in the source) and
returns a non-null token set on every path - previous value, file-cached
value, empty set in CI, or the synthesised placeholder - except the one path
where the side file parses to an object whose `cookies` entry is JSON `null`
with a still-fresh timestamp, in which case the loaded `null` is returned. -/
theorem c9_get_or_update_non_null (env : CookieEnv) (st : CookieState)
    (h : ∀ fd, env.file = some (.ok fd) → env.is_ci = false →
      fd.cookies = some none → 3600 ≤ env.now - fd.timestamp.getD 0) :
    (get_or_update_cookies env st).2 ≠ none := by
  unfold get_or_update_cookies
  by_cases hc : (!truthyCookies st.cookies
      || decide (env.now - st.cookies_last_updated > 3600)) = true
  · rw [if_pos hc]
    show (update_cookies env st).cookies ≠ none
    unfold update_cookies
    by_cases hci : env.is_ci
    · rw [if_pos hci]
      by_cases ht : truthyCookies st.cookies = true
      · simpa [ht] using truthyCookies_ne_none ht
      · simp only [Bool.not_eq_true] at ht
        simp [ht]
    · rw [if_neg hci]
      match hfile : env.file with
      | none =>
        simp only [load_cookie_file]
        by_cases ht : truthyCookies st.cookies = true
        · simp only [Bool.false_eq_true, if_false, ht, if_true]
          exact truthyCookies_ne_none ht
        · simp only [Bool.not_eq_true] at ht
          simp [ht]
      | some (.error u) =>
        simp only [load_cookie_file]
        by_cases ht : truthyCookies st.cookies = true
        · simpa [ht] using truthyCookies_ne_none ht
        · simp only [Bool.not_eq_true] at ht
          simp [ht]
      | some (.ok fd) =>
        simp only [load_cookie_file]
        by_cases hfresh : env.now - fd.timestamp.getD 0 < 3600
        · rw [if_pos (by simpa using hfresh)]
          match hcv : fd.cookies with
          | none => simp
          | some (some d) => simp
          | some none =>
            exact absurd (h fd hfile (by simpa using hci) hcv) (by omega)
        · rw [if_neg (by simpa using hfresh)]
          match hcv : fd.cookies with
          | none => simp [truthyCookies]
          | some (some d) =>
            by_cases ht : truthyCookies (some d) = true
            · simp only [ht, if_true]
              exact truthyCookies_ne_none ht
            · simp only [Bool.not_eq_true] at ht
              simp [ht]
          | some none => simp [truthyCookies]
  · rw [if_neg hc]
    show st.cookies ≠ none
    simp only [Bool.or_eq_true, Bool.not_eq_true', not_or] at hc
    match htc : truthyCookies st.cookies with
    | true => exact truthyCookies_ne_none htc
    | false => exact absurd htc hc.1

/-- Witness for C9: in a CI environment with no side file and no held
cookies, `getOrRefresh` returns the empty (but non-null) token set. -/
theorem c9_get_or_update_non_null_witness :
    (get_or_update_cookies ⟨true, none, 0⟩ ⟨none, 0⟩).2 = some []
    ∧ (get_or_update_cookies ⟨true, none, 0⟩ ⟨none, 0⟩).2 ≠ none :=
  ⟨by decide,
    c9_get_or_update_non_null ⟨true, none, 0⟩ ⟨none, 0⟩
      (fun _ hfd => Option.noConfusion hfd)⟩
